import Mathlib

/-!
Shallow embedding of the data layer of `src/app.py` (Employee Salary
Management, Streamlit + MongoDB).

The two MongoDB collections of database `EmployeeManagementDB` are modelled
as Lean lists of records.  Each data-layer Python function becomes a Lean
function taking the database state and returning the new state together with
the Python return value.  A Python exception that escapes the function is
modelled by `Except.error`; a normal return by `Except.ok`.

The connection handler `get_db_connection` (src/app.py lines 19-47) either
yields a working client or, when a generic exception occurred, returns
`None`.  This is modelled by a Boolean `conn` parameter: `conn = true` means
the handler returned a client, `conn = false` means it returned `None`.  In
the `None` case every data function that evaluates `client["EmployeeManagementDB"]`
raises a `TypeError` in Python; this is `PyExc.typeError` here.

Timestamps (`datetime.now()`) are modelled as a `now : Nat` parameter, and
MongoDB ObjectIds (`_id`) as a `Nat` field `oid`; `insert_one`'s freshly
generated id is an `oid : Nat` parameter of the inserting function.
-/

/-- Document of the `employees` collection (src/app.py lines 77-84):
`_id` (modelled as `oid`), `employeeId`, `name`, `email`, `designation`,
`status`, `joinedDate`. -/
structure Employee where
  oid : Nat
  employeeId : String
  name : String
  email : String
  designation : String
  status : String
  joinedDate : Nat
deriving DecidableEq

/-- Document of the `salaries` collection (src/app.py lines 132-138). -/
structure Transaction where
  employeeId : String
  employeeName : String
  amount : Int
  month : String
  processedDate : Nat
deriving DecidableEq

/-- State of the database `EmployeeManagementDB`: its two collections. -/
structure DB where
  employees : List Employee
  salaries : List Transaction
deriving DecidableEq

/-- Error raised by a MongoDB write: either a duplicate-key violation of a
unique index (its text contains "duplicate key", which is what the
`"duplicate key" in str(e)` checks of src/app.py lines 90 and 144 detect),
or any other driver error carrying a message. -/
inductive MongoErr where
  | duplicateKey
  | other (msg : String)
deriving DecidableEq

/-- Python exception escaping a data-layer function to its caller.
`typeError` is the `TypeError: 'NoneType' object is not subscriptable`
raised by `client["EmployeeManagementDB"]` when `get_db_connection`
returned `None`. -/
inductive PyExc where
  | typeError
deriving DecidableEq

/-- Modelled from the spec: section 6 declares a storage-level unique index
on `employees.email` (no index-creation code is under src/).  `insert_one`
on the `employees` collection appends the document, or raises a
duplicate-key error when an existing document has the same email. -/
def insertEmployeeDoc (db : DB) (e : Employee) : Except MongoErr DB :=
  if db.employees.any (fun x => x.email == e.email) then
    .error .duplicateKey
  else
    .ok { db with employees := db.employees ++ [e] }

/-- Modelled from the spec: section 6 declares a storage-level unique
compound index on `salaries.(employeeId, month)` (no index-creation code is
under src/).  `insert_one` on the `salaries` collection appends the
document, or raises a duplicate-key error when an existing document has the
same `(employeeId, month)` pair. -/
def insertSalaryDoc (db : DB) (t : Transaction) : Except MongoErr DB :=
  if db.salaries.any (fun s => s.employeeId == t.employeeId && s.month == t.month) then
    .error .duplicateKey
  else
    .ok { db with salaries := db.salaries ++ [t] }

/-- MongoDB `update_one` semantics on a list: apply `f` to the first
element satisfying `p`; when none matches, the list is unchanged and no
error is raised (matched_count is simply 0 in Python). -/
def update_first (p : Employee → Bool) (f : Employee → Employee) :
    List Employee → List Employee
  | [] => []
  | x :: xs => if p x then f x :: xs else x :: update_first p f xs

/-- Embedding of `fetch_employees` (src/app.py lines 51-66): returns `[]`
when the connection handler yielded no client, otherwise the documents
matching `{"status": "Active"}` when `active_only`, else all documents.
The `_id`-to-string conversion for the UI is identity on our model. -/
def fetch_employees (conn : Bool) (db : DB) (active_only : Bool) : List Employee :=
  if !conn then []
  else if active_only then db.employees.filter (fun e => e.status == "Active")
  else db.employees

/-- Document built by `register_employee` (src/app.py lines 77-84). -/
def newEmployee (emp_id nm em rl : String) (now oid : Nat) : Employee :=
  { oid := oid, employeeId := emp_id, name := nm, email := em,
    designation := rl, status := "Active", joinedDate := now }

/-- Embedding of `register_employee` (src/app.py lines 68-92).  With no
client, `client["EmployeeManagementDB"]` raises.  Otherwise a pre-read
checks the identifier; then `insert_one` runs inside `try`, a duplicate-key
error is turned into the duplicate-email message, any other error into a
"Database error" message. -/
def register_employee (conn : Bool) (now oid : Nat) (db : DB)
    (emp_id nm em rl : String) : Except PyExc ((Bool × String) × DB) :=
  if !conn then .error .typeError
  else if db.employees.any (fun e => e.employeeId == emp_id) then
    .ok ((false, "Employee ID is already in use."), db)
  else
    match insertEmployeeDoc db (newEmployee emp_id nm em rl now oid) with
    | .ok db2 => .ok ((true, "Employee registered successfully."), db2)
    | .error .duplicateKey =>
        .ok ((false, "This email address is already registered."), db)
    | .error (.other m) => .ok ((false, "Database error: " ++ m), db)

/-- Embedding of `update_employee_record` (src/app.py lines 94-106):
`update_one` selects the document whose `_id` is `uid` and overwrites name,
email and designation.  When no document matches, MongoDB writes nothing
and the function still returns `True` (matched_count is simply 0).  When a
document matches but would take an email already carried by a DIFFERENT
document, the spec section 6 unique index on email rejects the write with a
duplicate-key error; the `except` branch of src/app.py lines 105-106
catches it and returns `False`, leaving the state unchanged.  Otherwise the
write is applied and the function returns `True`. -/
def update_employee_record (conn : Bool) (db : DB) (uid : Nat)
    (nm em rl : String) : Except PyExc (Bool × DB) :=
  if !conn then .error .typeError
  else
    match db.employees.find? (fun e => e.oid == uid) with
    | none => .ok (true, db)
    | some _ =>
        if db.employees.any (fun x => !(x.oid == uid) && x.email == em) then
          .ok (false, db)
        else
          let emps := update_first (fun e => e.oid == uid)
            (fun e => { e with name := nm, email := em, designation := rl })
            db.employees
          .ok (true, { db with employees := emps })

/-- Embedding of `archive_employee` (src/app.py lines 108-120): sets the
status of the document selected by `_id` to "Inactive". -/
def archive_employee (conn : Bool) (db : DB) (uid : Nat) :
    Except PyExc (Bool × DB) :=
  if !conn then .error .typeError
  else
    let emps := update_first (fun e => e.oid == uid)
      (fun e => { e with status := "Inactive" })
      db.employees
    .ok (true, { db with employees := emps })

/-- Embedding of `process_payroll_transaction` (src/app.py lines 122-146):
looks up the employee by identifier, builds the transaction with a frozen
copy of the employee's current name, and inserts it; a duplicate-key error
becomes the already-processed message. -/
def process_payroll_transaction (conn : Bool) (now : Nat) (db : DB)
    (emp_id : String) (amount : Int) (month : String) :
    Except PyExc ((Bool × String) × DB) :=
  if !conn then .error .typeError
  else
    match db.employees.find? (fun e => e.employeeId == emp_id) with
    | none => .ok ((false, "Employee record not found."), db)
    | some employee =>
      match insertSalaryDoc db
          { employeeId := emp_id, employeeName := employee.name,
            amount := amount, month := month, processedDate := now } with
      | .ok db2 => .ok ((true, "Transaction processed successfully."), db2)
      | .error .duplicateKey =>
          .ok ((false, "Salary for " ++ month ++ " has already been processed for this employee."), db)
      | .error (.other m) => .ok ((false, "Error: " ++ m), db)

/-- Embedding of `fetch_payroll_history` (src/app.py lines 148-160).
The Python line `query = {"month": month} if month else {}` tests the
TRUTHINESS of `month`: `None` and the empty string are both falsy, so the
filter applies only for a non-empty month string. -/
def fetch_payroll_history (conn : Bool) (db : DB) (month : Option String) :
    Except PyExc (List Transaction) :=
  if !conn then .error .typeError
  else
    match month with
    | some m =>
        if m == "" then .ok db.salaries
        else .ok (db.salaries.filter (fun t => t.month == m))
    | none => .ok db.salaries

/-- Ledger invariant of the spec, section 3: at most one transaction per
(employee identifier, period) pair, as a decidable Boolean predicate. -/
def ledgerUnique : List Transaction → Bool
  | [] => true
  | t :: ts =>
      !(ts.any (fun s => s.employeeId == t.employeeId && s.month == t.month))
        && ledgerUnique ts

/-- MongoDB primary-key guarantee: the `_id` values of a collection are
pairwise distinct, as a decidable Boolean predicate. -/
def oidUnique : List Employee → Bool
  | [] => true
  | e :: es => !(es.any (fun x => x.oid == e.oid)) && oidUnique es

/-- Branch equation of `update_employee_record`: no document carries the
selected `_id`, so nothing is written and the call reports success. -/
theorem update_employee_record_none_eq (db : DB) (uid : Nat)
    (nm em rl : String)
    (hf : db.employees.find? (fun e => e.oid == uid) = none) :
    update_employee_record true db uid nm em rl = .ok (true, db) := by
  simp [update_employee_record, hf]

/-- Branch equation of `update_employee_record`: the selected document
exists but the new email collides with a different document's email, so
the unique index rejects the write and the caught error yields `False`. -/
theorem update_employee_record_conflict_eq (db : DB) (uid : Nat)
    (nm em rl : String) (tgt : Employee)
    (hf : db.employees.find? (fun e => e.oid == uid) = some tgt)
    (hc : db.employees.any (fun x => !(x.oid == uid) && x.email == em) = true) :
    update_employee_record true db uid nm em rl = .ok (false, db) := by
  simp [update_employee_record, hf, hc]

/-- Branch equation of `update_employee_record`: the selected document
exists and the new email collides with no other document, so the write is
applied and the call reports success. -/
theorem update_employee_record_ok_eq (db : DB) (uid : Nat)
    (nm em rl : String) (tgt : Employee)
    (hf : db.employees.find? (fun e => e.oid == uid) = some tgt)
    (hc : db.employees.any (fun x => !(x.oid == uid) && x.email == em) = false) :
    update_employee_record true db uid nm em rl = .ok (true, { db with employees := update_first (fun e => e.oid == uid) (fun e => { e with name := nm, email := em, designation := rl }) db.employees }) := by
  simp [update_employee_record, hf, hc]

/-- C10: when the connection handler yields no client, `fetch_employees`
returns the empty list for both values of `active_only` instead of raising,
which is the same answer it gives on an empty employees collection. -/
theorem fetch_employees_no_client (db : DB) (b : Bool) :
    fetch_employees false db b = []
    ∧ fetch_employees false db b
        = fetch_employees true { employees := [], salaries := [] } b := by
  cases b <;> exact ⟨rfl, rfl⟩

/-- C4: `update_employee_record` leaves the salaries collection, and in
particular the `employeeName` field frozen on every recorded transaction,
exactly as it was: a later rename of the referenced employee does not alter
historical transactions. -/
theorem update_preserves_salaries (db : DB) (uid : Nat) (nm em rl : String) :
    (update_employee_record true db uid nm em rl).map (fun p => p.2.salaries)
      = .ok db.salaries
    ∧ (update_employee_record true db uid nm em rl).map
        (fun p => p.2.salaries.map (fun t => t.employeeName))
      = .ok (db.salaries.map (fun t => t.employeeName)) := by
  cases hf : db.employees.find? (fun e => e.oid == uid) with
  | none =>
      rw [update_employee_record_none_eq db uid nm em rl hf]
      exact ⟨rfl, rfl⟩
  | some tgt =>
      cases hc : db.employees.any (fun x => !(x.oid == uid) && x.email == em) with
      | true =>
          rw [update_employee_record_conflict_eq db uid nm em rl tgt hf hc]
          exact ⟨rfl, rfl⟩
      | false =>
          rw [update_employee_record_ok_eq db uid nm em rl tgt hf hc]
          exact ⟨rfl, rfl⟩

/-- Concrete employee document used by the witnesses. -/
def empA : Employee :=
  { oid := 1, employeeId := "E1", name := "Alice", email := "alice@corp.com",
    designation := "Engineer", status := "Active", joinedDate := 100 }

/-- Concrete salary transaction used by the witnesses. -/
def txA : Transaction :=
  { employeeId := "E1", employeeName := "Alice", amount := 5000,
    month := "2024-01", processedDate := 200 }

/-- Concrete database state used by the witnesses: one registered employee
with one recorded payment. -/
def dbA : DB := { employees := [empA], salaries := [txA] }

/-- C3: when no employee document carries the given identifier, the payment
fails with the not-found message and the database, in particular the
salaries collection, is returned unchanged. -/
theorem pay_unknown_employee (now : Nat) (db : DB) (emp_id : String)
    (amount : Int) (month : String)
    (h : ∀ e ∈ db.employees, e.employeeId ≠ emp_id) :
    process_payroll_transaction true now db emp_id amount month
      = .ok ((false, "Employee record not found."), db) := by
  have hf : db.employees.find? (fun e => e.employeeId == emp_id) = none := by
    apply List.find?_eq_none.mpr
    intro e he
    simpa using h e he
  simp [process_payroll_transaction, hf]

theorem pay_unknown_employee_witness :
    process_payroll_transaction true 7 dbA "E9" 100 "2024-05"
      = .ok ((false, "Employee record not found."), dbA) :=
  pay_unknown_employee 7 dbA "E9" 100 "2024-05" (by decide)

/-- C6: registering with a fresh identifier but an email already present in
the collection is rejected by the storage-level unique index; the caught
duplicate-key error becomes the duplicate-email message and the database is
returned unchanged (no second document added). -/
theorem register_duplicate_email (now oid : Nat) (db : DB)
    (emp_id nm em rl : String)
    (hid : db.employees.any (fun e => e.employeeId == emp_id) = false)
    (hem : db.employees.any (fun e => e.email == em) = true) :
    register_employee true now oid db emp_id nm em rl
      = .ok ((false, "This email address is already registered."), db) := by
  simp [register_employee, insertEmployeeDoc, newEmployee, hid, hem]

theorem register_duplicate_email_witness :
    register_employee true 3 9 dbA "E2" "Bob" "alice@corp.com" "QA"
      = .ok ((false, "This email address is already registered."), dbA) :=
  register_duplicate_email 3 9 dbA "E2" "Bob" "alice@corp.com" "QA"
    (by decide) (by decide)

/-- C1: registering with an identifier already present fails with the
duplicate-identifier message decided by the pre-read; with a fresh
identifier and fresh email it succeeds, appending exactly one document with
status "Active" and the current timestamp, and that document is a member of
`fetch_employees` with `active_only = false` on the new state. -/
theorem register_spec (now oid : Nat) (db : DB) (emp_id nm em rl : String) :
    (db.employees.any (fun e => e.employeeId == emp_id) = true →
      register_employee true now oid db emp_id nm em rl
        = .ok ((false, "Employee ID is already in use."), db))
    ∧ (db.employees.any (fun e => e.employeeId == emp_id) = false →
       db.employees.any (fun e => e.email == em) = false →
         register_employee true now oid db emp_id nm em rl
           = .ok ((true, "Employee registered successfully."),
               { db with employees :=
                   db.employees ++ [newEmployee emp_id nm em rl now oid] })
         ∧ (newEmployee emp_id nm em rl now oid).status = "Active"
         ∧ (newEmployee emp_id nm em rl now oid).joinedDate = now
         ∧ newEmployee emp_id nm em rl now oid
             ∈ fetch_employees true
                 { db with employees :=
                     db.employees ++ [newEmployee emp_id nm em rl now oid] }
                 false) := by
  constructor
  · intro h
    simp [register_employee, h]
  · intro h1 h2
    refine ⟨?_, rfl, rfl, ?_⟩
    · simp [register_employee, insertEmployeeDoc, newEmployee, h1, h2]
    · simp [fetch_employees]

theorem register_spec_witness :
    (register_employee true 3 9 dbA "E1" "Bob" "bob@corp.com" "QA"
       = .ok ((false, "Employee ID is already in use."), dbA))
    ∧ (register_employee true 3 9 dbA "E2" "Bob" "bob@corp.com" "QA"
         = .ok ((true, "Employee registered successfully."),
             { dbA with employees :=
                 dbA.employees ++ [newEmployee "E2" "Bob" "bob@corp.com" "QA" 3 9] })
       ∧ (newEmployee "E2" "Bob" "bob@corp.com" "QA" 3 9).status = "Active"
       ∧ (newEmployee "E2" "Bob" "bob@corp.com" "QA" 3 9).joinedDate = 3
       ∧ newEmployee "E2" "Bob" "bob@corp.com" "QA" 3 9
           ∈ fetch_employees true
               { dbA with employees :=
                   dbA.employees ++ [newEmployee "E2" "Bob" "bob@corp.com" "QA" 3 9] }
               false) :=
  ⟨(register_spec 3 9 dbA "E1" "Bob" "bob@corp.com" "QA").1 (by decide),
   (register_spec 3 9 dbA "E2" "Bob" "bob@corp.com" "QA").2 (by decide) (by decide)⟩

/-- C7 counterexample: called with the empty string as period argument,
`fetch_payroll_history` does not return the transactions whose stored
period equals the empty string: Python treats the empty string as falsy, so
the filter is dropped and all transactions come back. -/
theorem fetch_payroll_history_empty_period_cex :
    fetch_payroll_history true dbA (some "")
      ≠ .ok (dbA.salaries.filter (fun t => t.month == "")) := by
  simp [fetch_payroll_history, dbA, txA]

/-- C7 (amended): for every NON-EMPTY period argument the history is the
exact-match filter of the salaries collection; with no period argument, and
likewise with the empty string (falsy in Python), all transactions are
returned. -/
theorem fetch_payroll_history_spec (db : DB) (m : String) (hm : m ≠ "") :
    fetch_payroll_history true db (some m)
      = .ok (db.salaries.filter (fun t => t.month == m))
    ∧ fetch_payroll_history true db none = .ok db.salaries
    ∧ fetch_payroll_history true db (some "") = .ok db.salaries := by
  refine ⟨?_, rfl, rfl⟩
  simp [fetch_payroll_history, hm]

theorem fetch_payroll_history_spec_witness :
    (fetch_payroll_history true dbA (some "2024-01")
       = .ok (dbA.salaries.filter (fun t => t.month == "2024-01")))
    ∧ fetch_payroll_history true dbA none = .ok dbA.salaries
    ∧ fetch_payroll_history true dbA (some "") = .ok dbA.salaries :=
  fetch_payroll_history_spec dbA "2024-01" (by decide)

/-- C8 counterexample: when the connection handler has returned `None`,
`register_employee` evaluates `client["EmployeeManagementDB"]` outside any
`try` block and raises a `TypeError` to the caller instead of returning a
(flag, message) pair. -/
theorem register_no_client_raises :
    register_employee false 0 0 { employees := [], salaries := [] }
        "E1" "Alice" "alice@corp.com" "Engineer"
      = .error PyExc.typeError := rfl

/-- C8 (amended): whenever the connection handler yields a client,
`register_employee` returns a (success flag, human-readable message) pair
and never raises: the pre-read decides the duplicate-identifier branch, and
every insert error is caught and mapped to a message. When the handler
yields no client the call raises instead. -/
theorem register_never_raises_with_client (now oid : Nat) (db : DB)
    (emp_id nm em rl : String) :
    ∃ p, register_employee true now oid db emp_id nm em rl = .ok p := by
  by_cases h1 : db.employees.any (fun e => e.employeeId == emp_id) = true
  · exact ⟨((false, "Employee ID is already in use."), db),
      by simp [register_employee, h1]⟩
  · by_cases h2 : db.employees.any (fun e => e.email == em) = true
    · exact ⟨((false, "This email address is already registered."), db),
        by simp [register_employee, insertEmployeeDoc, newEmployee, h1, h2]⟩
    · exact ⟨((true, "Employee registered successfully."),
          { db with employees :=
              db.employees ++ [newEmployee emp_id nm em rl now oid] }),
        by simp [register_employee, insertEmployeeDoc, newEmployee, h1, h2]⟩

/-- An `update_one` applied twice targets the same first match, so it is
idempotent whenever the modification is idempotent and does not change
whether the selector matches. -/
theorem update_first_idem (p : Employee → Bool) (f : Employee → Employee)
    (hp : ∀ x, p (f x) = p x) (hf : ∀ x, f (f x) = f x) (l : List Employee) :
    update_first p f (update_first p f l) = update_first p f l := by
  induction l with
  | nil => rfl
  | cons x xs ih =>
    by_cases h : p x = true
    · simp [update_first, h, hp, hf]
    · simp [update_first, h, ih]

/-- Elements that do not match the selector survive an `update_one`
untouched. -/
theorem mem_update_first_of_not_match (p : Employee → Bool)
    (f : Employee → Employee) (l : List Employee) (x : Employee)
    (hx : x ∈ l) (hpx : p x = false) :
    x ∈ update_first p f l := by
  induction l with
  | nil => cases hx
  | cons y ys ih =>
    by_cases h : p y = true
    · rcases List.mem_cons.mp hx with rfl | hmem
      · rw [h] at hpx; cases hpx
      · simp [update_first, h, hmem]
    · rcases List.mem_cons.mp hx with rfl | hmem
      · simp [update_first, h]
      · simp [update_first, h, ih hmem]

/-- An `update_one` whose selector matches nothing leaves the collection
unchanged. -/
theorem update_first_eq_of_no_match (p : Employee → Bool)
    (f : Employee → Employee) (l : List Employee)
    (h : ∀ x ∈ l, p x = false) :
    update_first p f l = l := by
  induction l with
  | nil => rfl
  | cons y ys ih =>
    have hy := h y (List.mem_cons_self y ys)
    simp [update_first, hy, ih (fun x hx => h x (List.mem_cons_of_mem y hx))]

/-- A projection untouched by the modification is preserved pointwise by an
`update_one` across the whole collection. -/
theorem map_update_first {α : Type} (p : Employee → Bool)
    (f : Employee → Employee) (g : Employee → α)
    (hg : ∀ x, g (f x) = g x) (l : List Employee) :
    (update_first p f l).map g = l.map g := by
  induction l with
  | nil => rfl
  | cons y ys ih =>
    by_cases h : p y = true
    · simp [update_first, h, hg]
    · simp [update_first, h, ih]

/-- With pairwise-distinct `_id`s, an `update_one` selecting `uid` turns a
member carrying that `_id` into its modified copy. -/
theorem update_first_mem_updated (uid : Nat) (f : Employee → Employee)
    (l : List Employee) (hu : oidUnique l = true) (e : Employee)
    (he : e ∈ l) (hoid : e.oid = uid) :
    f e ∈ update_first (fun x => x.oid == uid) f l := by
  induction l with
  | nil => cases he
  | cons y ys ih =>
    obtain ⟨hu1, hu2⟩ : ys.any (fun x => x.oid == y.oid) = false
        ∧ oidUnique ys = true := by
      simpa [oidUnique, Bool.and_eq_true, Bool.not_eq_true'] using hu
    by_cases h : (y.oid == uid) = true
    · rcases List.mem_cons.mp he with rfl | hmem
      · simp [update_first, h]
      · exfalso
        have hy : y.oid = uid := by simpa using h
        have : ys.any (fun x => x.oid == y.oid) = true :=
          List.any_eq_true.mpr ⟨e, hmem, by simp [hoid, hy]⟩
        rw [this] at hu1; cases hu1
    · rcases List.mem_cons.mp he with rfl | hmem
      · exact absurd (by simpa using hoid) h
      · simp [update_first, h]
        exact Or.inr (ih hu2 hmem)

/-- With pairwise-distinct `_id`s, after an archive-style `update_one`
every member carrying the selected `_id` has status "Inactive". -/
theorem update_first_status_inactive (uid : Nat) (l : List Employee)
    (hu : oidUnique l = true) :
    ∀ x ∈ update_first (fun e => e.oid == uid)
        (fun e => { e with status := "Inactive" }) l,
      x.oid = uid → x.status = "Inactive" := by
  induction l with
  | nil => intro x hx; cases hx
  | cons y ys ih =>
    obtain ⟨hu1, hu2⟩ : ys.any (fun x => x.oid == y.oid) = false
        ∧ oidUnique ys = true := by
      simpa [oidUnique, Bool.and_eq_true, Bool.not_eq_true'] using hu
    intro x hx hxo
    by_cases h : (y.oid == uid) = true
    · rcases List.mem_cons.mp (by simpa [update_first, h] using hx) with rfl | hmem
      · rfl
      · exfalso
        have hy : y.oid = uid := by simpa using h
        have : ys.any (fun z => z.oid == y.oid) = true :=
          List.any_eq_true.mpr ⟨x, hmem, by simp [hxo, hy]⟩
        rw [this] at hu1; cases hu1
    · rcases List.mem_cons.mp (by simpa [update_first, h] using hx) with rfl | hmem
      · exact absurd (by simpa using hxo) h
      · exact ih hu2 x hmem hxo

/-- Unfolding equation for a successful `archive_employee` call. -/
theorem archive_employee_eq (db : DB) (uid : Nat) :
    archive_employee true db uid = .ok (true, { db with employees := update_first (fun e => e.oid == uid) (fun e => { e with status := "Inactive" }) db.employees }) := rfl

/-- Re-archiving reproduces the state of the first archive call. -/
theorem archive_employee_idem (db : DB) (uid : Nat) (flag : Bool) (db' : DB)
    (h : archive_employee true db uid = .ok (flag, db')) :
    archive_employee true db' uid = .ok (flag, db') := by
  rw [archive_employee_eq, Except.ok.injEq, Prod.mk.injEq] at h
  obtain ⟨hflag, hdb⟩ := h
  subst hdb
  subst hflag
  have hU := update_first_idem (fun x => x.oid == uid) (fun x => { x with status := "Inactive" }) (fun x => rfl) (fun x => rfl) db.employees
  show Except.ok (true, ({ db with employees := update_first (fun e => e.oid == uid) (fun e => { e with status := "Inactive" }) (update_first (fun e => e.oid == uid) (fun e => { e with status := "Inactive" }) db.employees) } : DB)) = _
  rw [hU]

/-- C5: deactivation sets the selected employee's status to "Inactive",
re-running it returns the very same state (idempotence), and on the new
state the employee is absent from the active-only listing while present,
with status "Inactive", in the full listing. -/
theorem archive_employee_spec (db : DB) (uid : Nat) (e : Employee)
    (flag : Bool) (db' : DB)
    (hu : oidUnique db.employees = true)
    (he : e ∈ db.employees) (hoid : e.oid = uid)
    (h : archive_employee true db uid = .ok (flag, db')) :
    archive_employee true db' uid = .ok (flag, db')
    ∧ { e with status := "Inactive" } ∈ fetch_employees true db' false
    ∧ (∀ x ∈ fetch_employees true db' true, x.oid ≠ uid) := by
  have h2 := h
  rw [archive_employee_eq, Except.ok.injEq, Prod.mk.injEq] at h2
  obtain ⟨hflag, hdb⟩ := h2
  subst hdb
  refine ⟨archive_employee_idem db uid flag _ h, ?_, ?_⟩
  · exact update_first_mem_updated uid _ db.employees hu e he hoid
  · intro x hx hxo
    have hx2 : x ∈ (update_first (fun z => z.oid == uid) (fun z => { z with status := "Inactive" }) db.employees).filter (fun z => z.status == "Active") := hx
    have hx' := List.mem_filter.mp hx2
    have hst : x.status = "Inactive" :=
      update_first_status_inactive uid db.employees hu x hx'.1 hxo
    have hact := hx'.2
    rw [hst] at hact
    exact absurd hact (by decide)

/-- Concrete database reached from `dbA` by archiving its one employee. -/
def dbAInactive : DB :=
  { employees := [{ empA with status := "Inactive" }], salaries := [txA] }

theorem archive_employee_spec_witness :
    archive_employee true dbAInactive 1 = .ok (true, dbAInactive)
    ∧ { empA with status := "Inactive" } ∈ fetch_employees true dbAInactive false
    ∧ (∀ x ∈ fetch_employees true dbAInactive true, x.oid ≠ 1) :=
  archive_employee_spec dbA 1 empA true dbAInactive (by decide) (by decide)
    (by rfl) (by rfl)

/-- C9: an update touches only the three mutable fields (name, email,
designation) of the record selected by its key: the `_id`, identifier,
status and joined timestamp of every record, the whole salaries collection,
and every non-selected record are unchanged; when no record carries the
key, the call still reports success (`True`) and changes nothing (no
not-found signal); when the new email collides with no other record, the
call reports success; when a selected record exists and the new email
collides with a different record's unique-indexed email, the caught
duplicate-key error yields `False` with nothing changed; and with distinct
`_id`s the selected record's mutable fields are overwritten on success. -/
theorem update_employee_record_frame (db : DB) (uid : Nat)
    (nm em rl : String) (flag : Bool) (db' : DB)
    (h : update_employee_record true db uid nm em rl = .ok (flag, db')) :
    db'.salaries = db.salaries
    ∧ db'.employees.map (fun e => (e.oid, e.employeeId, e.status, e.joinedDate))
        = db.employees.map (fun e => (e.oid, e.employeeId, e.status, e.joinedDate))
    ∧ (∀ e ∈ db.employees, e.oid ≠ uid → e ∈ db'.employees)
    ∧ ((∀ e ∈ db.employees, e.oid ≠ uid) → flag = true ∧ db' = db)
    ∧ (db.employees.any (fun x => !(x.oid == uid) && x.email == em) = false →
        flag = true)
    ∧ ((db.employees.find? (fun e => e.oid == uid)).isSome = true →
       db.employees.any (fun x => !(x.oid == uid) && x.email == em) = true →
        flag = false ∧ db' = db)
    ∧ (oidUnique db.employees = true →
       db.employees.any (fun x => !(x.oid == uid) && x.email == em) = false →
       ∀ e ∈ db.employees, e.oid = uid →
        { e with name := nm, email := em, designation := rl } ∈ db'.employees) := by
  cases hf : db.employees.find? (fun e => e.oid == uid) with
  | none =>
      rw [update_employee_record_none_eq db uid nm em rl hf,
        Except.ok.injEq, Prod.mk.injEq] at h
      obtain ⟨hflag, hdb⟩ := h
      subst hdb
      subst hflag
      refine ⟨rfl, rfl, fun e he _ => he, fun _ => ⟨rfl, rfl⟩, fun _ => rfl,
        ?_, ?_⟩
      · intro hsome
        simp at hsome
      · intro _ _ e he heq
        have hnone := List.find?_eq_none.mp hf e he
        exact absurd (by simp [heq]) hnone
  | some tgt =>
      have htmem : tgt ∈ db.employees := List.mem_of_find?_eq_some hf
      have htoid : tgt.oid = uid := by simpa using List.find?_some hf
      cases hc : db.employees.any (fun x => !(x.oid == uid) && x.email == em) with
      | true =>
          rw [update_employee_record_conflict_eq db uid nm em rl tgt hf hc,
            Except.ok.injEq, Prod.mk.injEq] at h
          obtain ⟨hflag, hdb⟩ := h
          subst hdb
          subst hflag
          refine ⟨rfl, rfl, fun e he _ => he, ?_, ?_,
            fun _ _ => ⟨rfl, rfl⟩, ?_⟩
          · intro hall
            exact absurd htoid (hall tgt htmem)
          · intro hnc
            exact hnc.symm
          · intro _ hnc
            exact Bool.noConfusion hnc
      | false =>
          rw [update_employee_record_ok_eq db uid nm em rl tgt hf hc,
            Except.ok.injEq, Prod.mk.injEq] at h
          obtain ⟨hflag, hdb⟩ := h
          subst hdb
          subst hflag
          refine ⟨rfl, ?_, ?_, ?_, fun _ => rfl, ?_, ?_⟩
          · exact map_update_first (fun e => e.oid == uid) (fun e => { e with name := nm, email := em, designation := rl }) (fun e => (e.oid, e.employeeId, e.status, e.joinedDate)) (fun x => rfl) db.employees
          · intro e he hne
            exact mem_update_first_of_not_match _ _ _ e he
              (by rw [beq_eq_false_iff_ne]; exact hne)
          · intro hall
            exact absurd htoid (hall tgt htmem)
          · intro hsome hcol
            exact Bool.noConfusion hcol
          · intro hu _ e he heq
            exact update_first_mem_updated uid _ db.employees hu e he heq

/-- Concrete database reached from `dbA` by updating its one employee. -/
def dbAUpdated : DB :=
  { employees := [{ empA with name := "Bea", email := "bea@corp.com", designation := "QA" }], salaries := [txA] }

theorem update_employee_record_frame_witness :
    dbAUpdated.salaries = dbA.salaries
    ∧ dbAUpdated.employees.map (fun e => (e.oid, e.employeeId, e.status, e.joinedDate))
        = dbA.employees.map (fun e => (e.oid, e.employeeId, e.status, e.joinedDate))
    ∧ (∀ e ∈ dbA.employees, e.oid ≠ 1 → e ∈ dbAUpdated.employees)
    ∧ ((∀ e ∈ dbA.employees, e.oid ≠ 1) → true = true ∧ dbAUpdated = dbA)
    ∧ (dbA.employees.any (fun x => !(x.oid == 1) && x.email == "bea@corp.com") = false →
        true = true)
    ∧ ((dbA.employees.find? (fun e => e.oid == 1)).isSome = true →
       dbA.employees.any (fun x => !(x.oid == 1) && x.email == "bea@corp.com") = true →
        true = false ∧ dbAUpdated = dbA)
    ∧ (oidUnique dbA.employees = true →
       dbA.employees.any (fun x => !(x.oid == 1) && x.email == "bea@corp.com") = false →
       ∀ e ∈ dbA.employees, e.oid = 1 →
        { e with name := "Bea", email := "bea@corp.com", designation := "QA" } ∈ dbAUpdated.employees) :=
  update_employee_record_frame dbA 1 "Bea" "bea@corp.com" "QA" true
    dbAUpdated (by rfl)

/-- Appending a transaction whose (employeeId, month) pair is absent from
the ledger preserves the at-most-one-transaction-per-pair invariant. -/
theorem ledgerUnique_append_one (l : List Transaction) (t : Transaction)
    (hl : ledgerUnique l = true)
    (hf : l.any (fun s => s.employeeId == t.employeeId && s.month == t.month) = false) :
    ledgerUnique (l ++ [t]) = true := by
  induction l with
  | nil => simp [ledgerUnique]
  | cons x xs ih =>
    simp only [ledgerUnique, Bool.and_eq_true, Bool.not_eq_true'] at hl
    simp only [List.any_cons, Bool.or_eq_false_iff] at hf
    simp only [List.cons_append, ledgerUnique, List.append_eq, List.any_append,
      List.any_cons, List.any_nil, Bool.or_false, Bool.and_eq_true,
      Bool.not_eq_true', Bool.or_eq_false_iff]
    refine ⟨⟨hl.1, ?_⟩, ih hl.2 hf.2⟩
    have h1 := hf.1
    cases hb : (x.employeeId == t.employeeId) with
    | false =>
        have hne : t.employeeId ≠ x.employeeId := fun hh => by
          rw [beq_eq_false_iff_ne] at hb; exact hb hh.symm
        simp [hne]
    | true =>
        rw [hb, Bool.true_and] at h1
        have hne : t.month ≠ x.month := fun hh => by
          rw [beq_eq_false_iff_ne] at h1; exact h1 hh.symm
        simp [hne]

/-- C2: a second payment for an already-paid (employee, period) pair is
rejected by the compound uniqueness constraint with the duplicate-payment
message and the state, in particular the ledger, is unchanged; paying the
same employee for two fresh, distinct periods succeeds both times; and any
payroll call on a state satisfying the one-transaction-per-pair invariant
yields a state that still satisfies it.  The hypotheses hold in every state
the application can reach: transactions are only recorded for registered
employees and employee documents are never removed. -/
theorem pay_duplicate_protection (now now2 : Nat) (db : DB) (emp_id : String)
    (amount amount2 : Int) (m m1 m2 : String)
    (hex : (db.employees.find? (fun e => e.employeeId == emp_id)).isSome = true)
    (hdup : db.salaries.any (fun t => t.employeeId == emp_id && t.month == m) = true)
    (hm1 : db.salaries.any (fun t => t.employeeId == emp_id && t.month == m1) = false)
    (hm2 : db.salaries.any (fun t => t.employeeId == emp_id && t.month == m2) = false)
    (hne : m1 ≠ m2)
    (huniq : ledgerUnique db.salaries = true) :
    process_payroll_transaction true now db emp_id amount m
      = .ok ((false, "Salary for " ++ m ++ " has already been processed for this employee."), db)
    ∧ (∃ db1 db2,
        process_payroll_transaction true now db emp_id amount m1
          = .ok ((true, "Transaction processed successfully."), db1)
        ∧ process_payroll_transaction true now2 db1 emp_id amount2 m2
          = .ok ((true, "Transaction processed successfully."), db2))
    ∧ (∀ (now3 : Nat) (eid3 : String) (a3 : Int) (m3 : String)
         (r : (Bool × String) × DB),
        process_payroll_transaction true now3 db eid3 a3 m3 = .ok r →
        ledgerUnique r.2.salaries = true) := by
  obtain ⟨emp, hemp⟩ := Option.isSome_iff_exists.mp hex
  have hbm : (m1 == m2) = false := beq_eq_false_iff_ne.mpr hne
  refine ⟨?_, ?_, ?_⟩
  · simp [process_payroll_transaction, hemp, insertSalaryDoc, hdup]
  · refine ⟨{ db with salaries := db.salaries ++ [{ employeeId := emp_id, employeeName := emp.name, amount := amount, month := m1, processedDate := now }] }, { db with salaries := db.salaries ++ [{ employeeId := emp_id, employeeName := emp.name, amount := amount, month := m1, processedDate := now }] ++ [{ employeeId := emp_id, employeeName := emp.name, amount := amount2, month := m2, processedDate := now2 }] }, ?_, ?_⟩
    · simp [process_payroll_transaction, hemp, insertSalaryDoc, hm1]
    · simp [process_payroll_transaction, hemp, insertSalaryDoc, hm2,
        List.any_append, hbm]
  · intro now3 eid3 a3 m3 r h
    cases hfind : db.employees.find? (fun e => e.employeeId == eid3) with
    | none =>
        simp [process_payroll_transaction, hfind] at h
        subst h
        exact huniq
    | some emp3 =>
        cases hins : db.salaries.any (fun s => s.employeeId == eid3 && s.month == m3) with
        | true =>
            simp [process_payroll_transaction, hfind, insertSalaryDoc, hins] at h
            subst h
            exact huniq
        | false =>
            simp [process_payroll_transaction, hfind, insertSalaryDoc, hins] at h
            subst h
            exact ledgerUnique_append_one db.salaries
              { employeeId := eid3, employeeName := emp3.name, amount := a3, month := m3, processedDate := now3 }
              huniq hins

theorem pay_duplicate_protection_witness :
    process_payroll_transaction true 10 dbA "E1" 7 "2024-01"
      = .ok ((false, "Salary for " ++ "2024-01" ++ " has already been processed for this employee."), dbA)
    ∧ (∃ db1 db2,
        process_payroll_transaction true 10 dbA "E1" 7 "2024-02"
          = .ok ((true, "Transaction processed successfully."), db1)
        ∧ process_payroll_transaction true 11 db1 "E1" 8 "2024-03"
          = .ok ((true, "Transaction processed successfully."), db2))
    ∧ (∀ (now3 : Nat) (eid3 : String) (a3 : Int) (m3 : String)
         (r : (Bool × String) × DB),
        process_payroll_transaction true now3 dbA eid3 a3 m3 = .ok r →
        ledgerUnique r.2.salaries = true) :=
  pay_duplicate_protection 10 11 dbA "E1" 7 8 "2024-01" "2024-02" "2024-03"
    (by decide) (by decide) (by decide) (by decide) (by decide) (by decide)
